import Mathlib

/-!
# Verification of the Job-Search-Agent quality and routing layers

A shallow embedding, in Lean 4, of the parts of the Job-Search-Agent
repository that its specification claims talk about:

* `src/core/quality_assurance.py`: `JobValidator`, `JobDeduplicator` and the
  `QualityAssuranceLayer` validation stage;
* `src/core/intelligent_source_router.py`: `PerformanceTracker`,
  `QueryAnalyzer.classify_query` and `IntelligentSourceRouter.select_sources`.

Modelling conventions:

* Python `float` arithmetic is modelled with exact rationals (`ℚ`); every
  constant in the embedded code is a short decimal, written as a fraction.
* Python strings are modelled as `String` / `List Char`; the inputs the code
  handles are ASCII, so `Char.toLower`, `Char.isUpper`, `Char.isAlphanum`
  coincide with Python's `str.lower`, `str.isupper` and the `\w` class, and
  Python's whitespace class is `isPySpace` below.
* A missing or empty dictionary field is modelled as `""` (both are falsy in
  the Python code's `if not job.get(field)` tests, which never distinguish
  them).
* The small regular expressions the code uses are implemented directly as
  scanners over `List Char`, with `re.search`'s existential semantics
  (a pattern "matches" iff it matches starting at some position).
-/

/-! ## Characters, words and substrings (Python `re` helpers) -/

/-- Python's `\s` class (ASCII part): space, tab, newline, CR, FF, VT. -/
def isPySpace (c : Char) : Bool :=
  c = ' ' || c = '\t' || c = '\n' || c = '\r' || c = '\x0b' || c = '\x0c'

/-- Python's `\w` class (ASCII part): alphanumeric or underscore. -/
def isWordChar (c : Char) : Bool := c.isAlphanum || c = '_'

/-- `listStartsWith cs p` : does `cs` start with `p`? -/
def listStartsWith : List Char → List Char → Bool
  | _, [] => true
  | [], _ :: _ => false
  | c :: cs, p :: ps => c == p && listStartsWith cs ps

/-- Word-character status of position `j` of `text` (out of range = not a
word character), as used by `\b`. -/
def wordAt (text : List Char) (j : Nat) : Bool :=
  match text.get? j with
  | some c => isWordChar c
  | none => false

/-- `\b` holds at position `i`: the characters on the two sides of the
position differ in word-character status. -/
def boundaryAt (text : List Char) (i : Nat) : Bool :=
  (if i = 0 then false else wordAt text (i - 1)) != wordAt text i

/-- Does `re.search` find `\b...phrase...\b` (a literal phrase bracketed by
word boundaries) in `text`?  Existential over all starting positions. -/
def containsWordPhrase (text pat : List Char) : Bool :=
  (List.range (text.length + 1)).any fun i =>
    listStartsWith (text.drop i) pat && boundaryAt text i &&
      boundaryAt text (i + pat.length)

/-- `re.search (\b(w1|w2|...)\b)` : some alternative occurs as a
boundary-delimited phrase. -/
def containsAnyWord (text : List Char) (pats : List String) : Bool :=
  pats.any fun p => containsWordPhrase text p.data

/-- Python's substring test `pat in text`. -/
def containsSubstr (text pat : List Char) : Bool :=
  (List.range (text.length + 1)).any fun i => listStartsWith (text.drop i) pat

/-- `str.lower` (ASCII). -/
def pyLower (cs : List Char) : List Char := cs.map Char.toLower

/-- `str.strip()` (whitespace from both ends). -/
def pyStrip (cs : List Char) : List Char :=
  ((cs.dropWhile isPySpace).reverse.dropWhile isPySpace).reverse

/-- Number of maximal nonblank runs: Python's `len(s.split())`. -/
def wordCount (cs : List Char) : Nat :=
  (cs.foldl
    (fun (st : Bool × Nat) c =>
      if isPySpace c then (false, st.2)
      else if st.1 then st else (true, st.2 + 1))
    (false, 0)).2

/-- Number of uppercase characters (`sum(1 for c in text if c.isupper())`). -/
def upperCount (cs : List Char) : Nat := (cs.filter Char.isUpper).length

/-! ### Kernel-evaluable rational arithmetic

The standard `ℚ` operations are `@[irreducible]`, so concrete runs of the
embedded code could not be checked by `decide`.  The operations below are
value-equal to `+`, `-`, `*`, `/` (proved right here) but defined through
`Rat.divInt`, which the kernel evaluates.  Constants are written with
`mkRat`. -/

def qadd (a b : ℚ) : ℚ :=
  Rat.divInt (a.num * (b.den : ℤ) + b.num * (a.den : ℤ)) ((a.den : ℤ) * (b.den : ℤ))

def qsub (a b : ℚ) : ℚ :=
  Rat.divInt (a.num * (b.den : ℤ) - b.num * (a.den : ℤ)) ((a.den : ℤ) * (b.den : ℤ))

def qmul (a b : ℚ) : ℚ := Rat.divInt (a.num * b.num) ((a.den : ℤ) * (b.den : ℤ))

def qdiv (a b : ℚ) : ℚ := Rat.divInt (a.num * (b.den : ℤ)) (b.num * (a.den : ℤ))

theorem den_cast_ne_zero (a : ℚ) : ((a.den : ℚ)) ≠ 0 :=
  Nat.cast_ne_zero.mpr a.den_nz

theorem qadd_eq (a b : ℚ) : qadd a b = a + b := by
  rw [qadd, Rat.divInt_eq_div]
  push_cast
  conv_rhs => rw [← Rat.num_div_den a, ← Rat.num_div_den b]
  rw [div_add_div _ _ (den_cast_ne_zero a) (den_cast_ne_zero b)]
  congr 1
  ring

theorem qsub_eq (a b : ℚ) : qsub a b = a - b := by
  rw [qsub, Rat.divInt_eq_div]
  push_cast
  conv_rhs => rw [← Rat.num_div_den a, ← Rat.num_div_den b]
  rw [div_sub_div _ _ (den_cast_ne_zero a) (den_cast_ne_zero b)]
  congr 1
  ring

theorem qmul_eq (a b : ℚ) : qmul a b = a * b := by
  rw [qmul, Rat.divInt_eq_div]
  push_cast
  conv_rhs => rw [← Rat.num_div_den a, ← Rat.num_div_den b]
  rw [div_mul_div_comm]

theorem qdiv_eq (a b : ℚ) : qdiv a b = a / b := by
  rcases eq_or_ne b 0 with hb | hb
  · subst hb
    simp [qdiv, Rat.divInt_eq_div]
  · have hbn : ((b.num : ℚ)) ≠ 0 := by
      exact_mod_cast Rat.num_ne_zero.mpr hb
    have ha2 := den_cast_ne_zero a
    have hb2 := den_cast_ne_zero b
    rw [qdiv, Rat.divInt_eq_div]
    push_cast
    conv_rhs => rw [← Rat.num_div_den a, ← Rat.num_div_den b]
    field_simp
    left
    ring

/-- Sum of a list of rationals through `qadd` (equal to `List.sum`). -/
def qsum : List ℚ → ℚ
  | [] => 0
  | x :: xs => qadd x (qsum xs)

theorem qsum_eq (l : List ℚ) : qsum l = l.sum := by
  induction l with
  | nil => rfl
  | cons x xs ih => rw [qsum, qadd_eq, ih, List.sum_cons]

/-- Python's binary `min` on numbers (value-equal to `min` on `ℚ`; written
with an explicit `if` so that the kernel can evaluate it). -/
def pyMin (a b : ℚ) : ℚ := if a ≤ b then a else b

/-- Python's binary `max` on numbers (value-equal to `max` on `ℚ`). -/
def pyMax (a b : ℚ) : ℚ := if a ≤ b then b else a

theorem pyMin_eq_min (a b : ℚ) : pyMin a b = min a b := (min_def a b).symm

theorem pyMax_eq_max (a b : ℚ) : pyMax a b = max a b := (max_def a b).symm

/-! ## `JobValidator` (quality_assurance.py lines 53-334) -/

/-- A job listing: the dictionary fields the embedded code reads.  A missing
field is the empty string. -/
structure Job where
  title : String
  company : String
  location : String
  summary : String
  url : String
  salary : String
  requirements : String
  source : String
deriving DecidableEq

instance : Inhabited Job := ⟨⟨"", "", "", "", "", "", "", ""⟩⟩

inductive ValidationLevel
  | strict
  | moderate
  | lenient
deriving DecidableEq

inductive JobQuality
  | excellent
  | good
  | fair
  | poor
  | invalid
deriving DecidableEq

/-- `thresholds[level]['min_title_length']`. -/
def minTitleLength : ValidationLevel → Nat
  | .strict => 5
  | .moderate => 3
  | .lenient => 2

/-- `thresholds[level]['min_company_length']`. -/
def minCompanyLength : ValidationLevel → Nat
  | .strict => 2
  | .moderate => 2
  | .lenient => 1

/-- `thresholds[level]['min_summary_length']`. -/
def minSummaryLength : ValidationLevel → Nat
  | .strict => 20
  | .moderate => 10
  | .lenient => 5

/-- `thresholds[level]['min_quality_score']`. -/
def minQualityScore : ValidationLevel → ℚ
  | .strict => mkRat 7 10
  | .moderate => mkRat 1 2
  | .lenient => mkRat 3 10

/-- `thresholds[level]['require_url']`. -/
def requireUrl : ValidationLevel → Bool
  | .strict => true
  | .moderate => false
  | .lenient => false

/-- The four spam-word patterns of `_validate_title`. -/
def titleSpamPatterns : List (List String) :=
  [["urgent", "immediate", "quick", "fast", "easy", "simple", "basic"],
   ["work from home", "wfh", "online", "internet", "computer"],
   ["earn", "money", "income", "salary", "pay", "profit"],
   ["click", "visit", "call", "email", "apply now"]]

/-- `valid_titles` of `_validate_title` (substring test, not word test). -/
def validTitleWords : List String :=
  ["developer", "engineer", "manager", "analyst", "designer",
   "specialist", "coordinator", "assistant", "consultant", "lead",
   "architect", "scientist", "researcher", "administrator"]

/-- `_validate_title` score contribution (issue/warning messages are not
modelled; they never influence scores or validity). -/
def validateTitle (lvl : ValidationLevel) (title : String) : ℚ :=
  if title = "" then mkRat (-1) 5
  else
    let t := pyStrip title.data
    let low := pyLower t
    qsum [if t.length < minTitleLength lvl then mkRat (-1) 10 else 0,
      qmul (mkRat (-1) 20)
        ((titleSpamPatterns.countP fun ps => containsAnyWord low ps : ℕ) : ℚ),
      if validTitleWords.any (fun w => containsSubstr low w.data) then 0
      else mkRat (-1) 20]

/-- The two generic-term patterns of `_validate_company`. -/
def companyGenericPatterns : List (List String) :=
  [["company", "corp", "inc", "ltd", "llc", "group", "tech", "software",
    "solutions"],
   ["online", "internet", "digital", "virtual", "remote"]]

/-- `_validate_company` score contribution. -/
def validateCompany (lvl : ValidationLevel) (company : String) : ℚ :=
  if company = "" then mkRat (-1) 5
  else
    let c := pyStrip company.data
    let low := pyLower c
    qadd (if c.length < minCompanyLength lvl then mkRat (-1) 10 else 0)
      (if 2 ≤ companyGenericPatterns.countP (fun ps => containsAnyWord low ps)
       then mkRat (-1) 20 else 0)

/-- The four valid-location patterns of `_validate_location`. -/
def locationValidPatterns : List (List String) :=
  [["dhaka", "chittagong", "sylhet", "rajshahi", "khulna", "barisal",
    "rangpur", "mymensingh"],
   ["bangladesh", "bd"],
   ["remote", "work from home", "wfh", "online"],
   ["gulshan", "banani", "uttara", "dhanmondi", "mirpur"]]

/-- `_validate_location` score contribution. -/
def validateLocation (location : String) : ℚ :=
  if location = "" then mkRat (-1) 20
  else
    let l := pyStrip location.data
    if locationValidPatterns.any (fun ps => containsAnyWord (pyLower l) ps)
    then 0 else mkRat (-1) 20

/-- `_validate_summary` score contribution. -/
def validateSummary (lvl : ValidationLevel) (summary : String) : ℚ :=
  if summary = "" then mkRat (-1) 20
  else
    let s := pyStrip summary.data
    qadd (if s.length < minSummaryLength lvl then mkRat (-1) 10 else 0)
      (if wordCount s < 5 then mkRat (-1) 20 else 0)

/-- Tail of the URL pattern `^https?://[^\s/$.?#].[^\s]*$` after the scheme:
one character outside `\s/$.?#`, one arbitrary character (`.`, which does not
match a newline), then non-whitespace to the end. -/
def urlTailOk : List Char → Bool
  | c1 :: c2 :: rest =>
      !(isPySpace c1) && c1 != '/' && c1 != '$' && c1 != '.' && c1 != '?' &&
        c1 != '#' && c2 != '\n' && rest.all fun c => !(isPySpace c)
  | _ => false

/-- `re.match(r'^https?://[^\s/$.?#].[^\s]*$', url)` as a Boolean. -/
def urlMatchesPattern (url : String) : Bool :=
  let cs := url.data
  if listStartsWith cs "https://".data then urlTailOk (cs.drop 8)
  else if listStartsWith cs "http://".data then urlTailOk (cs.drop 7)
  else false

def suspiciousDomains : List String := ["bit.ly", "tinyurl", "goo.gl", "t.co"]

/-- `_validate_url` score contribution. -/
def validateUrl (lvl : ValidationLevel) (url : String) : ℚ :=
  if url = "" then (if requireUrl lvl then mkRat (-1) 5 else mkRat (-1) 20)
  else
    qadd (if urlMatchesPattern url then 0 else mkRat (-1) 10)
      (if suspiciousDomains.any
          (fun d => containsSubstr (pyLower url.data) d.data)
       then mkRat (-1) 20 else 0)

/-- Remainders reachable by consuming `1`, `2` or `3` leading digits. -/
def initDigitCounts (cs : List Char) : List Nat :=
  ([1, 2, 3].filter fun d => (cs.take d).length = d && (cs.take d).all (·.isDigit))

/-- Lengths consumable by `(?:,\d{3})*` (zero or more groups). -/
def commaGroupLens : Nat → List Char → List Nat
  | 0, _ => [0]
  | fuel + 1, cs =>
      0 :: (match cs with
        | ',' :: a :: b :: c :: rest =>
            if a.isDigit && b.isDigit && c.isDigit then
              (commaGroupLens fuel rest).map (· + 4)
            else []
        | _ => [])

def salarySuffixes : List String := ["k", "k+", "taka", "bdt"]

/-- `re.search(r'\b\d{1,3}(?:,\d{3})*(?:k|k\+|taka|bdt)\b', text)`:
existential over starting positions, digit counts, comma groups and
suffix alternatives. -/
def salaryNumberMatch (text : List Char) : Bool :=
  (List.range (text.length + 1)).any fun i =>
    boundaryAt text i &&
      ((initDigitCounts (text.drop i)).any fun d =>
        ((commaGroupLens text.length (text.drop (i + d))).any fun g =>
          (salarySuffixes.any fun suf =>
            listStartsWith (text.drop (i + d + g)) suf.data &&
              boundaryAt text (i + d + g + suf.data.length))))

def salaryPhrases : List String :=
  ["negotiable", "competitive", "market rate", "as per company policy"]

/-- `_validate_salary` score contribution. -/
def validateSalary (salary : String) : ℚ :=
  if salary = "" then 0
  else
    let low := pyLower salary.data
    if salaryNumberMatch low || containsAnyWord low salaryPhrases then 0
    else mkRat (-1) 50

/-- The five spam-indicator patterns of `_detect_spam`. -/
def spamIndicatorPatterns : List (List String) :=
  [["earn money", "make money", "quick money", "easy money"],
   ["work from home", "wfh", "online job", "internet job"],
   ["click", "visit", "call", "email", "apply now", "urgent"],
   ["no experience", "no skills", "anyone can do"],
   ["part time", "flexible hours", "own schedule"]]

/-- The text `_detect_spam` scans: `f"{title} {summary}".lower()`. -/
def spamText (j : Job) : List Char :=
  pyLower (j.title.data ++ [' '] ++ j.summary.data)

/-- `_detect_spam`: spam score to be subtracted from the quality score. -/
def detectSpam (j : Job) : ℚ :=
  let text := spamText j
  qadd
    (qmul (mkRat 1 10)
      ((spamIndicatorPatterns.countP fun ps => containsAnyWord text ps : ℕ) : ℚ))
    (if mkRat 3 10 < qdiv ((upperCount text : ℕ) : ℚ) ((text.length : ℕ) : ℚ)
     then mkRat 1 20 else 0)

/-- Required-fields loop of `validate_job`: `-0.2` per missing field,
`+0.1` per present field. -/
def reqTerm (v : String) : ℚ := if v = "" then mkRat (-1) 5 else mkRat 1 10

/-- The quality score of `validate_job` before clamping to `[0, 1]`. -/
def rawScore (lvl : ValidationLevel) (j : Job) : ℚ :=
  qsub
    (qsum [reqTerm j.title, reqTerm j.company, reqTerm j.location,
      reqTerm j.summary, validateTitle lvl j.title, validateCompany lvl j.company,
      validateLocation j.location, validateSummary lvl j.summary,
      validateUrl lvl j.url, validateSalary j.salary])
    (detectSpam j)

/-- `_determine_quality_level`. -/
def qualityLevelOf (s : ℚ) : JobQuality :=
  if mkRat 4 5 ≤ s then .excellent
  else if mkRat 3 5 ≤ s then .good
  else if mkRat 2 5 ≤ s then .fair
  else if mkRat 1 5 ≤ s then .poor
  else .invalid

/-- `ValidationResult` (the issue/warning/suggestion message lists are not
modelled; `validate_job` computes `is_valid` from the score alone). -/
structure ValidationResult where
  is_valid : Bool
  quality_score : ℚ
  quality_level : JobQuality
deriving DecidableEq

/-- `JobValidator.validate_job`. -/
def validate_job (lvl : ValidationLevel) (j : Job) : ValidationResult :=
  let score := pyMax 0 (pyMin 1 (rawScore lvl j))
  { is_valid := decide (minQualityScore lvl ≤ score),
    quality_score := score,
    quality_level := qualityLevelOf score }

/-- `QualityAssuranceLayer._validate_jobs`: keeps a job iff its quality score
is at least the hardcoded `0.3` ("Temporarily accept all jobs for testing"),
regardless of the configured level.  The validation-metadata attachment is not
modelled (it does not affect which jobs survive). -/
def validateJobsStage (lvl : ValidationLevel) (jobs : List Job) : List Job :=
  jobs.filter fun j => decide (mkRat 3 10 ≤ (validate_job lvl j).quality_score)

set_option maxRecDepth 100000

/-! ## Concrete jobs used to exercise the validator -/

/-- A complete listing except for salary; scores `0.4` at every level. -/
def jobStrictKept : Job :=
  ⟨"Software Engineer", "Acme", "Dhaka",
   "Develop and maintain backend services daily",
   "https://acme.example/jobs/1", "", "", ""⟩

/-- The same listing with the required `summary` field missing. -/
def jobMissingSummary : Job :=
  ⟨"Software Engineer", "Acme", "Dhaka", "",
   "https://acme.example/jobs/1", "", "", ""⟩

/-- `jobMissingSummary` with the summary filled by spam-indicator phrases. -/
def jobSpamSummary : Job :=
  ⟨"Software Engineer", "Acme", "Dhaka",
   "earn money wfh urgent no experience part time",
   "https://acme.example/jobs/1", "", "", ""⟩

/-! ## The four required fields, as a type (for the monotonicity claim) -/

inductive ReqField
  | title
  | company
  | location
  | summary
deriving DecidableEq

def getReqField (j : Job) : ReqField → String
  | .title => j.title
  | .company => j.company
  | .location => j.location
  | .summary => j.summary

def setReqField (j : Job) : ReqField → String → Job
  | .title, v => ⟨v, j.company, j.location, j.summary, j.url, j.salary,
      j.requirements, j.source⟩
  | .company, v => ⟨j.title, v, j.location, j.summary, j.url, j.salary,
      j.requirements, j.source⟩
  | .location, v => ⟨j.title, j.company, v, j.summary, j.url, j.salary,
      j.requirements, j.source⟩
  | .summary, v => ⟨j.title, j.company, j.location, v, j.url, j.salary,
      j.requirements, j.source⟩

/-- The content-validation contribution of one required field
(`_validate_title` / `_validate_company` / `_validate_location` /
`_validate_summary`). -/
def fieldContentScore (lvl : ValidationLevel) : ReqField → String → ℚ
  | .title, v => validateTitle lvl v
  | .company, v => validateCompany lvl v
  | .location, v => validateLocation v
  | .summary, v => validateSummary lvl v

/-- Clamping to `[0, 1]` is monotone. -/
theorem pyClampMono {a b : ℚ} (h : a ≤ b) :
    pyMax 0 (pyMin 1 a) ≤ pyMax 0 (pyMin 1 b) := by
  rw [pyMax_eq_max, pyMax_eq_max, pyMin_eq_min, pyMin_eq_min]
  exact max_le_max le_rfl (min_le_min le_rfl h)

theorem mkRat_neg_fifth_le_tenth : (mkRat (-1) 5 : ℚ) ≤ mkRat 1 10 := by decide

/-- C8: `validate_job` marks a listing valid exactly when its clamped quality
score reaches the configured level's minimum score; the collected issues play
no role in the verdict. -/
theorem c8_validity_rule (lvl : ValidationLevel) (j : Job) :
    (validate_job lvl j).is_valid = true ↔
      minQualityScore lvl ≤ (validate_job lvl j).quality_score := by
  simp [validate_job]

/-- C5: at the `strict` level the pipeline's validation stage
(`_validate_jobs`) keeps a listing whose quality score `0.4` is below the
strict minimum score `0.7` (the stage compares against a hardcoded `0.3`
instead of the level's threshold), contradicting the claim that a listing
survives iff its score is at least the configured level's minimum. -/
theorem c5_strict_level_not_enforced :
    validateJobsStage .strict [jobStrictKept] = [jobStrictKept] ∧
    (validate_job .strict jobStrictKept).quality_score <
      minQualityScore .strict ∧
    (validate_job .strict jobStrictKept).is_valid = false := by
  decide

/-- C6 (counterexample): filling the missing required `summary` field with a
non-empty value strictly lowers the quality score (the new content trips all
five spam indicators, losing more than the `+0.3` the required-field loop
regains), so adding a required field can decrease the score. -/
theorem c6_counterexample :
    jobMissingSummary.summary = "" ∧
    jobSpamSummary =
      setReqField jobMissingSummary .summary
        "earn money wfh urgent no experience part time" ∧
    ("earn money wfh urgent no experience part time" : String) ≠ "" ∧
    (validate_job .lenient jobSpamSummary).quality_score <
      (validate_job .lenient jobMissingSummary).quality_score := by
  decide

/-- C6 (amended): filling a missing required field never lowers the score
provided the new content scores no worse than the empty field under the
field's own content validation and leaves the spam score unchanged. -/
theorem c6_monotone_when_no_new_penalties (lvl : ValidationLevel) (j : Job)
    (f : ReqField) (v : String)
    (hempty : getReqField j f = "") (hv : v ≠ "")
    (hcontent : fieldContentScore lvl f "" ≤ fieldContentScore lvl f v)
    (hspam : detectSpam (setReqField j f v) = detectSpam j) :
    (validate_job lvl j).quality_score ≤
      (validate_job lvl (setReqField j f v)).quality_score := by
  have hq : ∀ j2 : Job,
      (validate_job lvl j2).quality_score = pyMax 0 (pyMin 1 (rawScore lvl j2)) :=
    fun _ => rfl
  rw [hq, hq]
  apply pyClampMono
  have hrv : reqTerm v = mkRat 1 10 := by simp [reqTerm, hv]
  have hconst := mkRat_neg_fifth_le_tenth
  cases f with
  | title =>
    simp only [getReqField] at hempty
    simp only [fieldContentScore] at hcontent
    simp only [setReqField] at hspam ⊢
    simp only [rawScore, qsub_eq, qsum_eq, List.sum_cons, List.sum_nil]
    rw [hspam, hempty, hrv]
    simp only [reqTerm, eq_self_iff_true, if_true]
    linarith
  | company =>
    simp only [getReqField] at hempty
    simp only [fieldContentScore] at hcontent
    simp only [setReqField] at hspam ⊢
    simp only [rawScore, qsub_eq, qsum_eq, List.sum_cons, List.sum_nil]
    rw [hspam, hempty, hrv]
    simp only [reqTerm, eq_self_iff_true, if_true]
    linarith
  | location =>
    simp only [getReqField] at hempty
    simp only [fieldContentScore] at hcontent
    simp only [setReqField] at hspam ⊢
    simp only [rawScore, qsub_eq, qsum_eq, List.sum_cons, List.sum_nil]
    rw [hspam, hempty, hrv]
    simp only [reqTerm, eq_self_iff_true, if_true]
    linarith
  | summary =>
    simp only [getReqField] at hempty
    simp only [fieldContentScore] at hcontent
    simp only [setReqField] at hspam ⊢
    simp only [rawScore, qsub_eq, qsum_eq, List.sum_cons, List.sum_nil]
    rw [hspam, hempty, hrv]
    simp only [reqTerm, eq_self_iff_true, if_true]
    linarith

/-- Witness for the amended C6 at a concrete listing and value. -/
theorem c6_monotone_witness :
    (getReqField jobMissingSummary .summary = "" ∧
      ("Develop and maintain backend services daily" : String) ≠ "" ∧
      fieldContentScore .lenient .summary "" ≤
        fieldContentScore .lenient .summary
          "Develop and maintain backend services daily" ∧
      detectSpam
          (setReqField jobMissingSummary .summary
            "Develop and maintain backend services daily") =
        detectSpam jobMissingSummary) ∧
    (validate_job .lenient jobMissingSummary).quality_score ≤
      (validate_job .lenient
        (setReqField jobMissingSummary .summary
          "Develop and maintain backend services daily")).quality_score :=
  ⟨⟨by decide, by decide, by decide, by decide⟩,
    c6_monotone_when_no_new_penalties .lenient jobMissingSummary .summary
      "Develop and maintain backend services daily"
      (by decide) (by decide) (by decide) (by decide)⟩

/-- `mkRat` constants as divisions, for use in abstract proofs. -/
theorem mkRat_eq_div (n : ℤ) (d : ℕ) : (mkRat n d : ℚ) = (n : ℚ) / (d : ℚ) := by
  rw [Rat.mkRat_eq_divInt, Rat.divInt_eq_div]
  norm_num

/-! ## `PerformanceTracker` (intelligent_source_router.py lines 62-145)

`record_request` appends `{'timestamp', 'success', 'response_time',
'jobs_found'}` to the source's `deque(maxlen=100)` and calls
`_update_metrics`.  The wall-clock `timestamp` (and hence the `last_used`
metric) is not modelled.

`_update_metrics` computes the aggregate values and then evaluates
`SourcePerformance(source_id=..., success_rate=..., avg_response_time=...,
avg_jobs_found=..., last_used=..., failure_count=..., total_requests=...,
is_available=..., priority_score=...)`.  The `SourcePerformance` dataclass
declares `source_type` with no default, and this call does not pass it, so
the construction raises `TypeError` on every call: the argument values are
computed (`updateMetricsValues` below), but `source_metrics[source_id]` is
never assigned, and the exception propagates out of `record_request` after
the history append has already happened. -/

structure RequestRecord where
  success : Bool
  response_time : ℚ
  jobs_found : ℤ
deriving DecidableEq

/-- The keyword arguments `_update_metrics` passes to `SourcePerformance`
(except the unmodelled `last_used` timestamp; `source_type` is required by
the dataclass but absent from the call). -/
structure SourceMetrics where
  source_id : String
  success_rate : ℚ
  avg_response_time : ℚ
  avg_jobs_found : ℚ
  failure_count : ℕ
  total_requests : ℕ
  is_available : Bool
  priority_score : ℚ
deriving DecidableEq

/-- `PerformanceTracker._calculate_priority_score`. -/
def calcPriorityScore (success_rate response_time jobs_found : ℚ) : ℚ :=
  let normalized_success := success_rate
  let normalized_speed := pyMax 0 (qsub 1 (qdiv response_time (mkRat 30 1)))
  let normalized_yield := pyMin 1 (qdiv jobs_found (mkRat 20 1))
  qsum [qmul normalized_success (mkRat 1 2),
    qmul normalized_speed (mkRat 3 10),
    qmul normalized_yield (mkRat 1 5)]

/-- The aggregate values `_update_metrics` computes from the rolling window
(the constructor arguments whose evaluation precedes the `TypeError`). -/
def updateMetricsValues (source_id : String) (history : List RequestRecord) :
    SourceMetrics :=
  let total := history.length
  let succ := (history.filter (·.success)).length
  let success_rate := if 0 < total then qdiv ((succ : ℕ) : ℚ) ((total : ℕ) : ℚ) else 0
  let avg_rt := qdiv (qsum (history.map (·.response_time))) ((total : ℕ) : ℚ)
  let avg_jf := qdiv (qsum (history.map fun r => ((r.jobs_found : ℤ) : ℚ)))
    ((total : ℕ) : ℚ)
  { source_id := source_id,
    success_rate := success_rate,
    avg_response_time := avg_rt,
    avg_jobs_found := avg_jf,
    failure_count := total - succ,
    total_requests := total,
    is_available := decide (mkRat 3 10 < success_rate),
    priority_score := calcPriorityScore success_rate avg_rt avg_jf }

/-- `PerformanceTracker` state: per-source rolling windows and the
`source_metrics` dictionary. -/
structure PerfTracker where
  histories : String → List RequestRecord
  source_metrics : String → Option SourceMetrics

def emptyTracker : PerfTracker := ⟨fun _ => [], fun _ => none⟩

/-- `history_size` default. -/
def historySize : Nat := 100

/-- Result of one `record_request` call: the tracker state after the call
and whether the call raised. -/
structure RecordOutcome where
  tracker : PerfTracker
  raised : Bool

/-- `PerformanceTracker.record_request`: the `deque(maxlen=100)` append
(evicting from the left down to 100 entries) always happens; the subsequent
`_update_metrics` always raises `TypeError` (missing `source_type` in the
`SourcePerformance` construction) before writing `source_metrics`, so the
metrics map is unchanged and `raised` is always `true`.  The recorded
`response_time` is stored exactly as passed (no clamping). -/
def record_request (t : PerfTracker) (source_id : String) (success : Bool)
    (response_time : ℚ) (jobs_found : ℤ) : RecordOutcome :=
  let w := t.histories source_id
  let w2 := (w ++ [RequestRecord.mk success response_time jobs_found]).drop
    ((w.length + 1) - historySize)
  { tracker :=
      { histories := fun s => if s = source_id then w2 else t.histories s,
        source_metrics := t.source_metrics },
    raised := true }

/-- Run a sequence of `record_request` calls
(`(source_id, success, response_time, jobs_found)`), keeping the state each
call leaves behind (in Python the `TypeError` would normally be propagated,
but the deque mutation has already happened when it is raised). -/
def runRecords (t : PerfTracker) (calls : List (String × Bool × ℚ × ℤ)) :
    PerfTracker :=
  calls.foldl
    (fun acc c => (record_request acc c.1 c.2.1 c.2.2.1 c.2.2.2).tracker) t

/-- Scenario D of the spec: six recorded outcomes, five failures then one
success, all on one source. -/
def scenarioD : List (String × Bool × ℚ × ℤ) :=
  [("scraper_bdjobs", false, 1, 0), ("scraper_bdjobs", false, 1, 0),
   ("scraper_bdjobs", false, 1, 0), ("scraper_bdjobs", false, 1, 0),
   ("scraper_bdjobs", false, 1, 0), ("scraper_bdjobs", true, 1, 0)]

/-- C1: `record_request` on a fresh tracker raises (`TypeError` from the
`SourcePerformance` construction missing `source_type`), and the entry it
appended before raising stores the negative response time `-5` as is —
not the clamped `max 0 (-5) = 0` the claim describes. -/
theorem c1_record_request_raises :
    (record_request emptyTracker "scraper_bdjobs" true (mkRat (-5) 1) 3).raised
        = true ∧
    ((record_request emptyTracker "scraper_bdjobs" true (mkRat (-5) 1)
          3).tracker.histories "scraper_bdjobs").map (·.response_time)
        = [mkRat (-5) 1] ∧
    (mkRat (-5) 1 : ℚ) ≠ pyMax 0 (mkRat (-5) 1) ∧
    (record_request emptyTracker "scraper_bdjobs" true (mkRat (-5) 1)
        3).tracker.source_metrics "scraper_bdjobs" = none := by
  refine ⟨rfl, by decide, by decide, rfl⟩

/-- C7: after the six recordRequest calls of scenario D the source has six
entries in its window, yet `get_source_metrics` still returns `None` — every
call raised before storing metrics — so no availability flag exists at all
(the claim expects `available == false`).  The `is_available` argument value
that `_update_metrics` computed before each `TypeError` is indeed `false`
for this window (success rate 1/6 is not above 0.3). -/
theorem c7_scenario_d_no_metrics :
    ((runRecords emptyTracker scenarioD).histories "scraper_bdjobs").length
        = 6 ∧
    ((runRecords emptyTracker scenarioD).histories "scraper_bdjobs").countP
        (·.success) = 1 ∧
    (runRecords emptyTracker scenarioD).source_metrics "scraper_bdjobs"
        = none ∧
    (updateMetricsValues "scraper_bdjobs"
        ((runRecords emptyTracker scenarioD).histories
          "scraper_bdjobs")).is_available = false ∧
    (record_request emptyTracker "scraper_bdjobs" false 1 0).raised = true := by
  refine ⟨by decide, by decide, rfl, by decide, rfl⟩

/-- C9: for a nonempty window, the `priority_score` computed by
`_update_metrics` equals exactly
`0.5 * successRate + 0.3 * max 0 (1 - avgResponseTime/30)
  + 0.2 * min 1 (avgJobsFound/20)`,
where the three aggregates are the averages over the window. -/
theorem c9_priority_formula (source_id : String) (w : List RequestRecord)
    (hw : w ≠ []) :
    (updateMetricsValues source_id w).priority_score =
      1/2 * (((w.filter (·.success)).length : ℚ) / (w.length : ℚ))
        + 3/10 * max 0 (1 - ((w.map (·.response_time)).sum / (w.length : ℚ)) / 30)
        + 1/5 * min 1 (((w.map fun r => ((r.jobs_found : ℤ) : ℚ)).sum
            / (w.length : ℚ)) / 20) := by
  have hlen : 0 < w.length := List.length_pos.mpr hw
  simp only [updateMetricsValues, calcPriorityScore, if_pos hlen,
    qsum_eq, qdiv_eq, qsub_eq, qmul_eq, pyMax_eq_max, pyMin_eq_min,
    List.sum_cons, List.sum_nil, mkRat_eq_div]
  push_cast
  ring

/-- Witness for C9 at a one-entry window. -/
theorem c9_priority_formula_witness :
    (([⟨true, mkRat 10 1, 5⟩] : List RequestRecord) ≠ []) ∧
    (updateMetricsValues "s" [⟨true, mkRat 10 1, 5⟩]).priority_score =
      1/2 * ((([⟨true, mkRat 10 1, 5⟩] : List RequestRecord).filter
          (·.success)).length : ℚ) / (([⟨true, mkRat 10 1, 5⟩] :
            List RequestRecord).length : ℚ)
        + 3/10 * max 0 (1 - ((([⟨true, mkRat 10 1, 5⟩] :
            List RequestRecord).map (·.response_time)).sum
              / (([⟨true, mkRat 10 1, 5⟩] : List RequestRecord).length : ℚ)) / 30)
        + 1/5 * min 1 (((([⟨true, mkRat 10 1, 5⟩] :
            List RequestRecord).map fun r => ((r.jobs_found : ℤ) : ℚ)).sum
              / (([⟨true, mkRat 10 1, 5⟩] : List RequestRecord).length : ℚ)) / 20) := by
  refine ⟨by decide, ?_⟩
  have h := c9_priority_formula "s" [⟨true, mkRat 10 1, 5⟩] (by decide)
  rw [h]
  ring

/-! ## `QueryAnalyzer` and `IntelligentSourceRouter.select_sources`
(intelligent_source_router.py lines 147-460)

`select_sources` is modelled as a function of the tracker's
`source_metrics` lookup (on a fresh router every lookup returns `none`).
Python's stable `sorted(..., key=k)` and `sorted(..., key=k, reverse=True)`
are modelled by the stable insertion sorts `pySortedAsc` / `pySortedDesc`:
an element is inserted after every already-placed element whose key does not
force it later, which preserves the original order of equal keys exactly as
CPython's stable sort does. -/

inductive SourceType
  | api
  | scraper
  | web_search
  | hybrid
deriving DecidableEq

inductive QueryType
  | general_job_search
  | company_specific
  | skill_based
  | location_specific
  | experience_level
  | remote_work
  | salary_range
  | recent_postings
deriving DecidableEq

structure QueryProfile where
  query_type : QueryType
  preferred_sources : List String
  min_sources : Nat
  max_sources : Nat
  timeout : ℚ
  expected_jobs : Nat
deriving DecidableEq

/-- The parsed-query dictionary from the Query Parser: the keys
`classify_query` reads.  Absent values are `""` / `[]` / `false` (all falsy,
like the code's `parsed_data.get(...)`). -/
structure ParsedQuery where
  company : String
  skills : List String
  location : String
  remote : Bool
  salary_range : String
  experience_level : String
  job_type : String
deriving DecidableEq

/-- `QueryAnalyzer.classify_query`. -/
def classify_query (p : ParsedQuery) : QueryType :=
  if p.company ≠ "" then .company_specific
  else if p.skills ≠ [] then .skill_based
  else if p.location ≠ "" ∧ String.mk (pyLower p.location.data) ≠ "bangladesh"
    then .location_specific
  else if p.remote then .remote_work
  else if p.salary_range ≠ "" then .salary_range
  else if p.experience_level ≠ "" then .experience_level
  else if p.job_type = "recent" then .recent_postings
  else .general_job_search

/-- The general profile (also the `query_profiles.get` default). -/
def generalProfile : QueryProfile :=
  ⟨.general_job_search,
   ["scraper_bdjobs", "scraper_linkedin", "web_search", "api_linkedin",
    "api_indeed"], 2, 4, mkRat 30 1, 15⟩

/-- `QueryAnalyzer.get_query_profile`: the `_initialize_query_profiles`
table; `experience_level` and `salary_range` have no entry, so the lookup
falls back to the general profile. -/
def get_query_profile : QueryType → QueryProfile
  | .general_job_search => generalProfile
  | .company_specific =>
      ⟨.company_specific,
       ["scraper_bdjobs", "scraper_linkedin", "api_linkedin", "web_search"],
       2, 3, mkRat 25 1, 8⟩
  | .skill_based =>
      ⟨.skill_based,
       ["scraper_bdjobs", "scraper_linkedin", "scraper_skilljobs",
        "web_search", "api_linkedin"], 2, 4, mkRat 30 1, 12⟩
  | .location_specific =>
      ⟨.location_specific,
       ["scraper_bdjobs", "scraper_skilljobs", "web_search"],
       2, 3, mkRat 25 1, 10⟩
  | .remote_work =>
      ⟨.remote_work, ["api_linkedin", "web_search", "api_indeed"],
       2, 4, mkRat 30 1, 12⟩
  | .recent_postings =>
      ⟨.recent_postings, ["scraper_bdjobs", "scraper_skilljobs", "web_search"],
       2, 3, mkRat 20 1, 8⟩
  | .experience_level => generalProfile
  | .salary_range => generalProfile

/-- One entry of `IntelligentSourceRouter._initialize_sources` (the nested
`config` dictionaries hold no data the router logic reads). -/
structure SourceConfig where
  name : String
  stype : SourceType
  priority : ℚ
  enabled : Bool
deriving DecidableEq

/-- `_initialize_sources`, in dictionary insertion order. -/
def available_sources : List (String × SourceConfig) :=
  [("api_linkedin", ⟨"LinkedIn API", .api, mkRat 1 1, true⟩),
   ("api_indeed", ⟨"Indeed API", .api, mkRat 9 10, true⟩),
   ("scraper_bdjobs", ⟨"BDJobs Scraper", .scraper, mkRat 4 5, true⟩),
   ("scraper_linkedin", ⟨"LinkedIn Scraper", .scraper, mkRat 4 5, true⟩),
   ("scraper_skilljobs", ⟨"Skill.jobs Scraper", .scraper, mkRat 7 10, true⟩),
   ("scraper_shomvob", ⟨"Shomvob Scraper", .scraper, mkRat 3 5, true⟩),
   ("web_search", ⟨"Advanced Web Search", .web_search, mkRat 1 2, true⟩)]

/-- Stable insertion used by `pySortedAsc`. -/
def insAsc (key : String × SourceConfig → ℚ) (x : String × SourceConfig) :
    List (String × SourceConfig) → List (String × SourceConfig)
  | [] => [x]
  | y :: ys => if key y ≤ key x then y :: insAsc key x ys else x :: y :: ys

/-- Python's stable `sorted(l, key=key)`. -/
def pySortedAsc (key : String × SourceConfig → ℚ)
    (l : List (String × SourceConfig)) : List (String × SourceConfig) :=
  l.foldl (fun acc x => insAsc key x acc) []

/-- Stable insertion used by `pySortedDesc`. -/
def insDesc (key : String × SourceConfig → ℚ) (x : String × SourceConfig) :
    List (String × SourceConfig) → List (String × SourceConfig)
  | [] => [x]
  | y :: ys => if key x ≤ key y then y :: insDesc key x ys else x :: y :: ys

/-- Python's stable `sorted(l, key=key, reverse=True)`. -/
def pySortedDesc (key : String × SourceConfig → ℚ)
    (l : List (String × SourceConfig)) : List (String × SourceConfig) :=
  l.foldl (fun acc x => insDesc key x acc) []

/-- `_get_available_sources`: enabled sources whose metrics (if any) do not
mark them unavailable. -/
def get_available_sources (metrics : String → Option SourceMetrics) :
    List (String × SourceConfig) :=
  available_sources.filter fun sc =>
    sc.2.enabled &&
      (match metrics sc.1 with
        | some m => m.is_available
        | none => true)

/-- `_filter_by_preferences`: stable sort by position in the preferred list
(`preference_map.get(id, len(preferred_sources))`, i.e. `List.indexOf`). -/
def filter_by_preferences (sources : List (String × SourceConfig))
    (preferred : List String) : List (String × SourceConfig) :=
  if preferred = [] then sources
  else pySortedAsc (fun sc => ((preferred.indexOf sc.1 : ℕ) : ℚ)) sources

/-- `_get_query_type_boost`. -/
def get_query_type_boost (sid : String) (qt : QueryType) : ℚ :=
  match qt with
  | .company_specific =>
      if sid = "api_linkedin" then mkRat 1 5
      else if sid = "api_indeed" then mkRat 1 10
      else if sid = "web_search" then mkRat 1 10 else 0
  | .location_specific =>
      if sid = "scraper_bdjobs" then mkRat 1 5
      else if sid = "scraper_skilljobs" then mkRat 1 5
      else if sid = "scraper_shomvob" then mkRat 1 10 else 0
  | .skill_based =>
      if sid = "web_search" then mkRat 1 5
      else if sid = "api_linkedin" then mkRat 1 10
      else if sid = "scraper_skilljobs" then mkRat 1 10 else 0
  | .remote_work =>
      if sid = "api_linkedin" then mkRat 1 5
      else if sid = "api_indeed" then mkRat 1 10
      else if sid = "web_search" then mkRat 1 10 else 0
  | _ => 0

/-- The ranking key of `_rank_sources`: config priority, plus
`priority_score * 0.3` when metrics exist, plus the query-type boost. -/
def rankKey (metrics : String → Option SourceMetrics) (qt : QueryType)
    (sc : String × SourceConfig) : ℚ :=
  qadd
    (qadd sc.2.priority
      (match metrics sc.1 with
        | some m => qmul m.priority_score (mkRat 3 10)
        | none => 0))
    (get_query_type_boost sc.1 qt)

/-- `_rank_sources`: stable descending sort by `rankKey`. -/
def rank_sources (metrics : String → Option SourceMetrics)
    (sources : List (String × SourceConfig)) (qt : QueryType) :
    List (String × SourceConfig) :=
  pySortedDesc (rankKey metrics qt) sources

/-- `_select_optimal_sources`. -/
def select_optimal_sources (ranked : List (String × SourceConfig))
    (profile : QueryProfile) (max_sources : Nat) : List String :=
  let num := min (min max_sources profile.max_sources) ranked.length
  let num2 := if num < profile.min_sources ∧ profile.min_sources ≤ ranked.length
    then profile.min_sources else num
  (ranked.take num2).map (·.1)

/-- `IntelligentSourceRouter.select_sources`. -/
def select_sources (metrics : String → Option SourceMetrics)
    (p : ParsedQuery) (max_sources : Nat) : List String :=
  let qt := classify_query p
  let profile := get_query_profile qt
  let avail := get_available_sources metrics
  let preferred := filter_by_preferences avail profile.preferred_sources
  let ranked := rank_sources metrics preferred qt
  select_optimal_sources ranked profile max_sources

/-- The tracker of a fresh router: no metrics recorded. -/
def noMetrics : String → Option SourceMetrics := fun _ => none

/-- The parsed query `{company: "Google"}`. -/
def googleQuery : ParsedQuery := ⟨"Google", [], "", false, "", "", ""⟩

/-- The claim's reading of "order follows the preferredSources list": every
returned id is preferred, and positions in the output never decrease in
preferred-list position. -/
def followsPreferredOrder (preferred out : List String) : Prop :=
  (∀ s ∈ out, s ∈ preferred) ∧
    out.Pairwise fun a b => preferred.indexOf a ≤ preferred.indexOf b

instance (preferred out : List String) :
    Decidable (followsPreferredOrder preferred out) := by
  unfold followsPreferredOrder
  infer_instance

/-- C2 (counterexample): for `{company: "Google"}` on a fresh router the
query is classified COMPANY_SPECIFIC, but `select_sources` returns
`[api_linkedin, api_indeed, scraper_bdjobs]` — `api_indeed` is not in the
profile's preferred list at all, and `scraper_bdjobs` (preferred position 0)
comes after `api_linkedin` (preferred position 2) — so the output order does
not follow `preferredSources`. -/
theorem c2_counterexample :
    classify_query googleQuery = .company_specific ∧
    select_sources noMetrics googleQuery 5 =
      ["api_linkedin", "api_indeed", "scraper_bdjobs"] ∧
    ¬ followsPreferredOrder
        (get_query_profile .company_specific).preferred_sources
        (select_sources noMetrics googleQuery 5) := by
  refine ⟨rfl, by decide, by decide⟩

/-- C2 (amended): the classification is COMPANY_SPECIFIC and the selection is
non-empty, but its order is the rank order (config priority plus query-type
boost): `[api_linkedin, api_indeed, scraper_bdjobs]`, not the preferred-list
order. -/
theorem c2_company_selection :
    classify_query googleQuery = .company_specific ∧
    select_sources noMetrics googleQuery 5 =
      ["api_linkedin", "api_indeed", "scraper_bdjobs"] ∧
    select_sources noMetrics googleQuery 5 ≠ [] := by
  refine ⟨rfl, by decide, by decide⟩

/-! ## `difflib.SequenceMatcher` (used by `_calculate_similarity`)

`SequenceMatcher(None, a, b).ratio()` with no junk predicate.  The autojunk
heuristic only activates for sequences of 200 or more elements; the strings
the deduplicator compares are far below that, so junk is inert and the two
junk-extension loops of `find_longest_match` do nothing.  The recursion of
`get_matching_blocks` is expressed with a fuel argument that strictly bounds
its depth (each recursive call shrinks an interval, so any fuel of at least
`|a| + |b| + 1` computes the same total). -/

/-- `j2len.get(j, 0)`. -/
def lookupJ2 (m : List (Nat × Nat)) (j : Nat) : Nat :=
  match m.find? (fun e => e.1 == j) with
  | some e => e.2
  | none => 0

/-- The positions `j` in `[blo, bhi)` with `b[j] = c`, ascending — the
iteration order of `b2j[a[i]]` after its range filtering. -/
def flmJs (b : List Char) (blo bhi : Nat) (c : Char) : List Nat :=
  (List.range' blo (bhi - blo)).filter fun j => b.getD j (Char.ofNat 0) == c

/-- Inner loop body of `find_longest_match`: extend runs ending at `j`,
updating the best block on strict improvement (so the earliest maximal
block wins, as in the Python). -/
def flmStepJ (j2lenOld : List (Nat × Nat)) (i : Nat)
    (acc : List (Nat × Nat) × (Nat × Nat × Nat)) (j : Nat) :
    List (Nat × Nat) × (Nat × Nat × Nat) :=
  let k := (if j = 0 then 0 else lookupJ2 j2lenOld (j - 1)) + 1
  let best := acc.2
  ((j, k) :: acc.1,
    if best.2.2 < k then (i + 1 - k, j + 1 - k, k) else best)

/-- Outer loop body of `find_longest_match` over `i`. -/
def flmStepI (a b : List Char) (blo bhi : Nat)
    (st : List (Nat × Nat) × (Nat × Nat × Nat)) (i : Nat) :
    List (Nat × Nat) × (Nat × Nat × Nat) :=
  (flmJs b blo bhi (a.getD i (Char.ofNat 0))).foldl (flmStepJ st.1 i)
    ([], st.2)

/-- `SequenceMatcher.find_longest_match` on `a[alo:ahi]`, `b[blo:bhi]`:
returns `(besti, bestj, bestsize)`. -/
def find_longest_match (a b : List Char) (alo ahi blo bhi : Nat) :
    Nat × Nat × Nat :=
  ((List.range' alo (ahi - alo)).foldl (flmStepI a b blo bhi)
    ([], (alo, blo, 0))).2

/-- Total size of the matching blocks of `get_matching_blocks` on the given
interval pair (the only thing `ratio` needs). -/
def matchTotalSize (a b : List Char) : Nat → Nat → Nat → Nat → Nat → Nat
  | 0, _, _, _, _ => 0
  | fuel + 1, alo, ahi, blo, bhi =>
    let m := find_longest_match a b alo ahi blo bhi
    if m.2.2 = 0 then 0
    else
      m.2.2
        + (if alo < m.1 && blo < m.2.1 then
            matchTotalSize a b fuel alo m.1 blo m.2.1 else 0)
        + (if m.1 + m.2.2 < ahi && m.2.1 + m.2.2 < bhi then
            matchTotalSize a b fuel (m.1 + m.2.2) ahi (m.2.1 + m.2.2) bhi
          else 0)

/-- `SequenceMatcher(None, a, b).ratio() = 2 * M / (len(a) + len(b))`
(`1.0` when both are empty, per `_calculate_ratio`). -/
def ratioOf (a b : List Char) : ℚ :=
  if a.length + b.length = 0 then mkRat 1 1
  else
    qdiv
      (((2 * matchTotalSize a b (a.length + b.length + 1) 0 a.length 0
          b.length : ℕ)) : ℚ)
      (((a.length + b.length : ℕ)) : ℚ)

/-! ## `JobDeduplicator` (quality_assurance.py lines 336-624) -/

/-- One squeeze pass used by `collapseWs`. -/
def squeezeSpaces : List Char → List Char
  | [] => []
  | [c] => [c]
  | a :: b :: rest =>
      if a == ' ' && b == ' ' then squeezeSpaces (b :: rest)
      else a :: squeezeSpaces (b :: rest)

/-- `re.sub(r'\s+', ' ', s)`: every whitespace run becomes one space. -/
def collapseWs (cs : List Char) : List Char :=
  squeezeSpaces (cs.map fun c => if isPySpace c then ' ' else c)

/-- Does `\s*-\s*(for|job id|job-id)` match starting at the head of `cs`
(the input is already lowercased, so `re.IGNORECASE` is inert)? -/
def dashSuffixAt (cs : List Char) : Bool :=
  match cs.dropWhile isPySpace with
  | '-' :: rest =>
      let r2 := rest.dropWhile isPySpace
      listStartsWith r2 "for".data || listStartsWith r2 "job id".data ||
        listStartsWith r2 "job-id".data
  | _ => false

/-- `re.sub(r'\s*-\s*(for|job id|job-id).*$', '', t)`: truncate at the
leftmost match (the `.*$` swallows the rest of the string). -/
def cutDashSuffix : List Char → List Char
  | [] => []
  | c :: cs => if dashSuffixAt (c :: cs) then [] else c :: cutDashSuffix cs

/-- Offset of the first `)` with no intervening newline (`.*?\)` is lazy and
`.` does not match a newline). -/
def findCloseParen : List Char → Option Nat
  | [] => none
  | c :: cs =>
      if c == ')' then some 0
      else if c == '\n' then none
      else (findCloseParen cs).map (· + 1)

/-- Length of a match of `\s*\(for\s+.*?\)` starting at the head of `cs`. -/
def parenForLen (cs : List Char) : Option Nat :=
  let n1 := (cs.takeWhile isPySpace).length
  let r1 := cs.drop n1
  if listStartsWith r1 "(for".data then
    let r2 := r1.drop 4
    let n2 := (r2.takeWhile isPySpace).length
    if n2 = 0 then none
    else
      match findCloseParen (r2.drop n2) with
      | some idx => some (n1 + 4 + n2 + idx + 1)
      | none => none
  else none

/-- `re.sub(r'\s*\(for\s+.*?\)', '', t)`: remove every (non-overlapping,
leftmost-first) match.  Each step consumes at least one character, so fuel
`cs.length` computes the full substitution. -/
def removeParenFor : Nat → List Char → List Char
  | 0, cs => cs
  | fuel + 1, cs =>
      match cs with
      | [] => []
      | c :: rest =>
          match parenForLen (c :: rest) with
          | some len => removeParenFor fuel ((c :: rest).drop len)
          | none => c :: removeParenFor fuel rest

/-- `re.sub(r'\.com$', '', c)`: drop a final `.com`. -/
def removeDotComSuffix (cs : List Char) : List Char :=
  if 4 ≤ cs.length && listStartsWith (cs.drop (cs.length - 4)) ".com".data
  then cs.take (cs.length - 4) else cs

/-- `re.sub` with a literal pattern: remove every occurrence, scanning left
to right, non-overlapping. -/
def removeAllSub (pat : List Char) : Nat → List Char → List Char
  | 0, cs => cs
  | fuel + 1, cs =>
      match cs with
      | [] => []
      | c :: rest =>
          if listStartsWith (c :: rest) pat then
            removeAllSub pat fuel ((c :: rest).drop pat.length)
          else c :: removeAllSub pat fuel rest

/-- The title component of `_generate_fingerprint` (lower, strip, collapse
whitespace, cut BDJobs dash suffix, remove `(For ...)` groups). -/
def fingerprint_title (title : String) : List Char :=
  let t := collapseWs (pyStrip (pyLower title.data))
  let t2 := cutDashSuffix t
  removeParenFor t2.length t2

/-- The company component of `_generate_fingerprint`. -/
def fingerprint_company (company : String) : List Char :=
  let c := collapseWs (pyStrip (pyLower company.data))
  let c2 := removeDotComSuffix c
  removeAllSub "bdjobs.com".data c2.length c2

/-- The location component of `_generate_fingerprint`. -/
def fingerprint_location (location : String) : List Char :=
  collapseWs (pyStrip (pyLower location.data))

/-- `_generate_fingerprint`: `'|'.join(filter(None, parts))`.  The code
hashes this text with `hashlib.md5(...).hexdigest()`; the hash is modelled as
the identity on the fingerprint text (grouping by hash value is grouping by
this text). -/
def fingerprint (j : Job) : String :=
  String.intercalate "|"
    ([String.mk (fingerprint_title j.title),
      String.mk (fingerprint_company j.company),
      String.mk (fingerprint_location j.location)].filter fun s => s != "")

/-- `_normalize_title` (lower, strip, cut dash suffix, remove `(For ...)`,
collapse whitespace — note the collapse happens last here, unlike the
fingerprint). -/
def normalize_title (title : String) : List Char :=
  let t := pyStrip (pyLower title.data)
  let t2 := cutDashSuffix t
  collapseWs (removeParenFor t2.length t2)

/-- `_normalize_company`. -/
def normalize_company (company : String) : List Char :=
  let c := pyStrip (pyLower company.data)
  let c2 := removeDotComSuffix c
  collapseWs (removeAllSub "bdjobs.com".data c2.length c2)

/-- `_calculate_similarity`: `0.6 * title + 0.3 * company + 0.1 * location`
similarity ratios. -/
def similarity (j1 j2 : Job) : ℚ :=
  qsum
    [qmul (ratioOf (normalize_title j1.title) (normalize_title j2.title))
      (mkRat 3 5),
     qmul (ratioOf (normalize_company j1.company)
        (normalize_company j2.company)) (mkRat 3 10),
     qmul (ratioOf (pyLower j1.location.data) (pyLower j2.location.data))
      (mkRat 1 10)]

/-- The default `similarity_threshold = 0.8`. -/
def similarity_threshold : ℚ := mkRat 4 5

/-- Is `i` the first index of `fps` carrying its fingerprint?  The groups of
`_find_exact_duplicates` (a `defaultdict(list)` filled in index order) are,
in first-occurrence order of the fingerprints, exactly the index sets of the
fingerprints of such first occurrences. -/
def isFirstOcc (fps : List String) (i : Nat) : Bool :=
  (List.range i).all fun j => fps.getD j "" != fps.getD i ""

/-- All indices sharing the fingerprint of index `i`, ascending — the bucket
the `defaultdict` accumulates for that fingerprint. -/
def exactGroupOf (fps : List String) (i : Nat) : List Nat :=
  (List.range fps.length).filter fun x => fps.getD x "" == fps.getD i ""

/-- `_find_exact_duplicates`: the buckets with more than one index. -/
def find_exact_duplicates (fps : List String) : List (List Nat) :=
  (((List.range fps.length).filter (isFirstOcc fps)).map
    (exactGroupOf fps)).filter fun g => 1 < g.length

/-- One iteration of the outer loop of `_find_fuzzy_duplicates`: state is
`(processed_indices, fuzzy_groups)`.  An unprocessed `i` collects every later
unprocessed `j` whose similarity to job `i` reaches the threshold; the group
is kept (and all its members marked processed) only if it has at least two
members. -/
def fuzzyStep (jobs : List Job) (st : List Nat × List (List Nat)) (i : Nat) :
    List Nat × List (List Nat) :=
  if st.1.contains i then st
  else
    let ms := (List.range' (i + 1) (jobs.length - (i + 1))).filter fun j =>
      !(st.1.contains j) &&
        decide (similarity_threshold ≤
          similarity (jobs.getD i default) (jobs.getD j default))
    let g := i :: ms
    if 1 < g.length then (st.1 ++ g, st.2 ++ [g]) else st

/-- `_find_fuzzy_duplicates`, starting from the exact-duplicate indices as
`processed_indices`. -/
def find_fuzzy_duplicates (jobs : List Job) (exact : List (List Nat)) :
    List (List Nat) :=
  ((List.range jobs.length).foldl (fuzzyStep jobs) (exact.flatten, [])).2

/-- `all_duplicate_groups = exact_duplicates + fuzzy_duplicates` (index
groups, as the code builds them). -/
def allDuplicateGroups (jobs : List Job) : List (List Nat) :=
  let ex := find_exact_duplicates (jobs.map fingerprint)
  ex ++ find_fuzzy_duplicates jobs ex

/-- `source.split(' (')[0]` — the part before the first `" ("`. -/
def sourceBase : List Char → List Char
  | [] => []
  | ' ' :: '(' :: _ => []
  | c :: cs => c :: sourceBase cs

/-- The `source_priority` table of `_select_best_job_from_group` (default
`5`; the `'LinkedIn (Fast Scraper)'` key is kept although the split makes it
unreachable). -/
def sourcePriorityOf (s : String) : ℚ :=
  let base := String.mk (sourceBase s.data)
  if base = "BDJobs" then mkRat 1 1
  else if base = "LinkedIn" then mkRat 2 1
  else if base = "LinkedIn (Fast Scraper)" then mkRat 2 1
  else if base = "Indeed" then mkRat 3 1
  else if base = "Web Search" then mkRat 4 1
  else mkRat 5 1

/-- Completeness component of `_calculate_job_quality_score`:
`0.4 * (present fields / 7)`. -/
def jqsCompleteness (j : Job) : ℚ :=
  let nFields : ℕ :=
    [j.title, j.company, j.location, j.summary, j.url, j.salary,
      j.requirements].countP fun f => f != ""
  qmul (qdiv ((nFields : ℕ) : ℚ) (mkRat 7 1)) (mkRat 2 5)

/-- Title-length bonus of `_calculate_job_quality_score`. -/
def jqsTitleLen (j : Job) : ℚ :=
  if 10 < j.title.data.length then mkRat 1 5 else 0

/-- Summary-length bonus of `_calculate_job_quality_score`. -/
def jqsSummaryLen (j : Job) : ℚ :=
  if 50 < j.summary.data.length then mkRat 1 5 else 0

/-- URL-presence bonus of `_calculate_job_quality_score`. -/
def jqsUrl (j : Job) : ℚ := if j.url != "" then mkRat 1 10 else 0

/-- Salary-presence bonus of `_calculate_job_quality_score`. -/
def jqsSalary (j : Job) : ℚ := if j.salary != "" then mkRat 1 10 else 0

/-- `_calculate_job_quality_score`. -/
def jobQualityScore (j : Job) : ℚ :=
  qsum [jqsCompleteness j, jqsTitleLen j, jqsSummaryLen j, jqsUrl j,
    jqsSalary j]

/-- `base_score + 1.0 / priority_bonus` of `_select_best_job_from_group`. -/
def finalSelScore (jobs : List Job) (idx : Nat) : ℚ :=
  let j := jobs.getD idx default
  qadd (jobQualityScore j) (qdiv (mkRat 1 1) (sourcePriorityOf j.source))

/-- `_select_best_job_from_group`: fold over the group starting from
`best_score = -1`, `best_index = group[0]`, taking an index on strict
improvement (a group is never empty in the code; `0` is a dummy for `[]`). -/
def select_best_job_from_group (jobs : List Job) (g : List Nat) : Nat :=
  match g with
  | [] => 0
  | h :: _ =>
      (g.foldl
        (fun (b : ℚ × Nat) idx =>
          if b.1 < finalSelScore jobs idx then (finalSelScore jobs idx, idx)
          else b)
        (mkRat (-1) 1, h)).2

/-- Is `i` in none of the duplicate groups? -/
def notInAnyGroup (groups : List (List Nat)) (i : Nat) : Bool :=
  groups.all fun g => !(g.contains i)

/-- `_select_best_jobs`' selected index set, sorted ascending: the best index
of each duplicate group plus every index in no group (`sorted(set(...))`,
realised as a filter over `range n` because every selected index is below
`n`). -/
def selectedIndices (jobs : List Job) (groups : List (List Nat)) : List Nat :=
  let bests := groups.map (select_best_job_from_group jobs)
  (List.range jobs.length).filter fun i =>
    bests.contains i || notInAnyGroup groups i

/-- `DeduplicationResult` (the mutable `deduplication_stats` dictionary is
not modelled; `duplicate_groups` holds index groups, which is what the code
actually stores there). -/
structure DeduplicationResult where
  unique_jobs : List Job
  duplicates_removed : Nat
  duplicate_groups : List (List Nat)
deriving DecidableEq

/-- `JobDeduplicator.deduplicate_jobs` (the early return on an empty input
coincides with the general path, which yields no groups and no jobs). -/
def deduplicate_jobs (jobs : List Job) : DeduplicationResult :=
  let groups := allDuplicateGroups jobs
  let uniq := (selectedIndices jobs groups).map fun i => jobs.getD i default
  { unique_jobs := uniq,
    duplicates_removed := jobs.length - uniq.length,
    duplicate_groups := groups }

/-! ## Concrete jobs used to exercise the deduplicator -/

/-- Company `"ab"`; shares its title and location with `jobBFull`/`jobCHalf`. -/
def jobAHalf : Job := ⟨"t", "ab", "dhaka", "", "", "", "", ""⟩

/-- Company `"abcd"`, with URL and salary (so it wins best-of-group). -/
def jobBFull : Job := ⟨"t", "abcd", "dhaka", "", "https://x.example/a", "5k", "", ""⟩

/-- Company `"cd"`: similar to `jobBFull` (ratio 2/3) but not to `jobAHalf`
(ratio 0). -/
def jobCHalf : Job := ⟨"t", "cd", "dhaka", "", "", "", "", ""⟩

/-- C4 (counterexample): deduplication is not idempotent.  On
`[jobAHalf, jobBFull, jobCHalf]` the first pass groups `{0, 1}` (similarity
`0.9 ≥ 0.8`; `jobCHalf` only reaches `0.7` against the group leader
`jobAHalf`) and keeps `[jobBFull, jobCHalf]`; the second pass groups the two
survivors (similarity `0.9`) and returns `[jobBFull]`. -/
theorem c4_counterexample :
    (deduplicate_jobs [jobAHalf, jobBFull, jobCHalf]).unique_jobs =
      [jobBFull, jobCHalf] ∧
    (deduplicate_jobs
        (deduplicate_jobs [jobAHalf, jobBFull, jobCHalf]).unique_jobs).unique_jobs
      = [jobBFull] ∧
    (deduplicate_jobs
        (deduplicate_jobs [jobAHalf, jobBFull, jobCHalf]).unique_jobs).unique_jobs
      ≠ (deduplicate_jobs [jobAHalf, jobBFull, jobCHalf]).unique_jobs := by
  refine ⟨by decide, by decide, by decide⟩

/-- The deduplicator returns at most as many listings as it was given. -/
theorem dedup_length_le (jobs : List Job) :
    (deduplicate_jobs jobs).unique_jobs.length ≤ jobs.length := by
  show ((selectedIndices jobs (allDuplicateGroups jobs)).map
    (fun i => jobs.getD i default)).length ≤ jobs.length
  rw [List.length_map]
  calc (selectedIndices jobs (allDuplicateGroups jobs)).length
      ≤ (List.range jobs.length).length := List.length_filter_le _ _
    _ = jobs.length := List.length_range _

/-- C4 (amended): a second deduplication pass can remove further listings
(idempotence fails), but it never adds any: the second pass returns at most
as many listings as the first. -/
theorem c4_second_pass_shrinks (jobs : List Job) :
    (deduplicate_jobs
        (deduplicate_jobs jobs).unique_jobs).unique_jobs.length ≤
      (deduplicate_jobs jobs).unique_jobs.length :=
  dedup_length_le _

/-- Selecting by ascending index after filtering is a sublist. -/
theorem filter_range_map_getD_sublist {α : Type} (l : List α) (d : α) :
    ∀ p : Nat → Bool,
      ((((List.range l.length).filter p).map fun i => l.getD i d)).Sublist l := by
  induction l with
  | nil =>
    intro p
    simp
  | cons x xs ih =>
    intro p
    rw [List.length_cons, List.range_succ_eq_map, List.filter_cons]
    have hcomm : (List.filter p ((List.range xs.length).map Nat.succ)) =
        ((List.range xs.length).filter fun i => p (i + 1)).map Nat.succ := by
      rw [List.filter_map]
      rfl
    by_cases h0 : p 0
    · simp only [h0, if_pos, List.map_cons, List.getD_cons_zero, hcomm,
        List.map_map]
      refine List.Sublist.cons₂ x ?_
      have : ((List.range xs.length).filter fun i => p (i + 1)).map
          ((fun i => (x :: xs).getD i d) ∘ Nat.succ) =
          ((List.range xs.length).filter fun i => p (i + 1)).map
            fun i => xs.getD i d := by
        apply List.map_congr_left
        intro i _
        simp [Function.comp]
      rw [this]
      exact ih _
    · simp only [h0, if_neg, Bool.false_eq_true, not_false_iff, hcomm,
        List.map_map]
      refine List.Sublist.cons x ?_
      have : ((List.range xs.length).filter fun i => p (i + 1)).map
          ((fun i => (x :: xs).getD i d) ∘ Nat.succ) =
          ((List.range xs.length).filter fun i => p (i + 1)).map
            fun i => xs.getD i d := by
        apply List.map_congr_left
        intro i _
        simp [Function.comp]
      rw [this]
      exact ih _

/-- C10: the deduplicator selects without mutating and preserves order —
its output is a sublist of the input (each returned listing is an input
listing, fields untouched, in ascending original-index order). -/
theorem c10_dedup_sublist (jobs : List Job) :
    (deduplicate_jobs jobs).unique_jobs.Sublist jobs :=
  filter_range_map_getD_sublist jobs default _

/-! ## The partition invariant of `deduplicate_jobs` (C3) -/

/-- Two index groups are disjoint. -/
def DisjL (g h : List Nat) : Prop := ∀ x, x ∈ g → x ∉ h

theorem contains_true_iff_mem {l : List Nat} {a : Nat} :
    l.contains a = true ↔ a ∈ l := by
  simp [List.contains]

theorem mem_exactGroupOf {fps : List String} {i x : Nat} :
    x ∈ exactGroupOf fps i ↔
      x < fps.length ∧ fps.getD x "" = fps.getD i "" := by
  simp [exactGroupOf, List.mem_filter, List.mem_range]

theorem exactGroupOf_nodup (fps : List String) (i : Nat) :
    (exactGroupOf fps i).Nodup :=
  (List.nodup_range _).filter _

/-- The characterization of membership in `find_exact_duplicates`. -/
theorem mem_find_exact_duplicates {fps : List String} {g : List Nat}
    (hg : g ∈ find_exact_duplicates fps) :
    1 < g.length ∧ ∃ i, i < fps.length ∧ isFirstOcc fps i = true ∧
      g = exactGroupOf fps i := by
  unfold find_exact_duplicates at hg
  obtain ⟨hmem, hlen⟩ := List.mem_filter.mp hg
  obtain ⟨i, hi, hgi⟩ := List.mem_map.mp hmem
  obtain ⟨hir, hifo⟩ := List.mem_filter.mp hi
  refine ⟨by simpa using hlen, i, List.mem_range.mp hir, hifo, hgi.symm⟩

theorem find_exact_duplicates_pairwise (fps : List String) :
    (find_exact_duplicates fps).Pairwise DisjL := by
  unfold find_exact_duplicates
  apply List.Pairwise.sublist (List.filter_sublist _)
  rw [List.pairwise_map]
  have hlt : ((List.range fps.length).filter (isFirstOcc fps)).Pairwise (· < ·) :=
    (List.pairwise_lt_range _).sublist (List.filter_sublist _)
  apply hlt.imp_of_mem
  intro a b ha hb hab
  have hbf : isFirstOcc fps b = true := (List.mem_filter.mp hb).2
  have hne : fps.getD a "" ≠ fps.getD b "" := by
    have := (List.all_eq_true.mp hbf) a (by
      exact List.mem_range.mpr hab)
    simpa using this
  intro x hxa hxb
  have h1 := (mem_exactGroupOf.mp hxa).2
  have h2 := (mem_exactGroupOf.mp hxb).2
  exact hne (h1 ▸ h2 ▸ rfl)

/-- Invariant of the `_find_fuzzy_duplicates` loop: the processed set is
exactly the members of the exact groups plus the members of the fuzzy groups
formed so far; every fuzzy group has at least two members, no repeats, and
in-range indices; and all groups (exact and fuzzy) are pairwise disjoint. -/
def FuzzyInv (exact : List (List Nat)) (n : Nat)
    (st : List Nat × List (List Nat)) : Prop :=
  st.1 = exact.flatten ++ st.2.flatten ∧
    (∀ g ∈ st.2, 1 < g.length ∧ g.Nodup ∧ ∀ x ∈ g, x < n) ∧
    (exact ++ st.2).Pairwise DisjL

theorem fuzzyStep_inv (jobs : List Job) (exact : List (List Nat))
    (st : List Nat × List (List Nat)) (i : Nat) (hi : i < jobs.length)
    (h : FuzzyInv exact jobs.length st) :
    FuzzyInv exact jobs.length (fuzzyStep jobs st i) := by
  obtain ⟨hproc, hgroups, hpair⟩ := h
  unfold fuzzyStep
  by_cases hc : st.1.contains i
  · simp only [hc, if_pos]
    exact ⟨hproc, hgroups, hpair⟩
  · simp only [hc, Bool.false_eq_true, if_neg, not_false_iff]
    set ms := (List.range' (i + 1) (jobs.length - (i + 1))).filter
      (fun j => !(st.1.contains j) &&
        decide (similarity_threshold ≤
          similarity (jobs.getD i default) (jobs.getD j default))) with hms
    by_cases hlen : 1 < (i :: ms).length
    · simp only [hlen, if_pos]
      have hiProc : i ∉ st.1 := by
        intro hmem
        exact hc (contains_true_iff_mem.mpr hmem)
      have hmsProc : ∀ j ∈ ms, j ∉ st.1 := by
        intro j hj hmem
        have := (List.mem_filter.mp hj).2
        rw [Bool.and_eq_true, Bool.not_eq_eq_eq_not, Bool.not_true] at this
        have hcj := contains_true_iff_mem.mpr hmem
        rw [this.1] at hcj
        exact Bool.false_ne_true hcj
      have hgProc : ∀ x ∈ i :: ms, x ∉ st.1 := by
        intro x hx
        rcases List.mem_cons.mp hx with rfl | hx2
        · exact hiProc
        · exact hmsProc x hx2
      have hgBound : ∀ x ∈ i :: ms, x < jobs.length := by
        intro x hx
        rcases List.mem_cons.mp hx with rfl | hx2
        · exact hi
        · have := (List.mem_filter.mp hx2).1
          have hb := List.mem_range'_1.mp this
          omega
      have hgNodup : (i :: ms).Nodup := by
        refine List.nodup_cons.mpr ⟨?_, ?_⟩
        · intro hmem
          have := (List.mem_filter.mp hmem).1
          have hb := List.mem_range'_1.mp this
          omega
        · exact ((List.nodup_range' ..).filter _)
      refine ⟨?_, ?_, ?_⟩
      · simp only [List.flatten_append, List.flatten_cons, List.flatten_nil,
          List.append_nil, hproc, List.append_assoc]
      · intro g hg
        rcases List.mem_append.mp hg with hg1 | hg2
        · exact hgroups g hg1
        · rw [List.mem_singleton] at hg2
          subst hg2
          exact ⟨hlen, hgNodup, hgBound⟩
      · rw [← List.append_assoc]
        rw [List.pairwise_append]
        refine ⟨hpair, List.pairwise_singleton _ _, ?_⟩
        intro a ha g hg
        rw [List.mem_singleton] at hg
        subst hg
        intro x hxa hxg
        have hxProc : x ∈ st.1 := by
          rw [hproc]
          rcases List.mem_append.mp ha with ha1 | ha2
          · exact List.mem_append.mpr (Or.inl (List.mem_flatten.mpr ⟨a, ha1, hxa⟩))
          · exact List.mem_append.mpr (Or.inr (List.mem_flatten.mpr ⟨a, ha2, hxa⟩))
        exact hgProc x hxg hxProc
    · simp only [hlen, if_neg, not_false_iff]
      exact ⟨hproc, hgroups, hpair⟩

theorem foldl_fuzzyStep_inv (jobs : List Job) (exact : List (List Nat)) :
    ∀ (is : List Nat) (st : List Nat × List (List Nat)),
      (∀ i ∈ is, i < jobs.length) → FuzzyInv exact jobs.length st →
      FuzzyInv exact jobs.length (is.foldl (fuzzyStep jobs) st) := by
  intro is
  induction is with
  | nil => intro st _ h; exact h
  | cons a l ih =>
    intro st hbound h
    rw [List.foldl_cons]
    exact ih _ (fun i hi => hbound i (List.mem_cons_of_mem a hi))
      (fuzzyStep_inv jobs exact st a (hbound a (List.mem_cons_self a l)) h)

/-- Every duplicate group (exact or fuzzy) has at least two members, no
repeated member, only in-range indices; and the groups are pairwise
disjoint. -/
theorem allDuplicateGroups_props (jobs : List Job) :
    (∀ g ∈ allDuplicateGroups jobs,
      1 < g.length ∧ g.Nodup ∧ ∀ x ∈ g, x < jobs.length) ∧
    (allDuplicateGroups jobs).Pairwise DisjL := by
  have hfpslen : (jobs.map fingerprint).length = jobs.length :=
    List.length_map _ _
  set fps := jobs.map fingerprint with hfps
  set ex := find_exact_duplicates fps with hex
  have hexact : ∀ g ∈ ex, 1 < g.length ∧ g.Nodup ∧ ∀ x ∈ g, x < jobs.length := by
    intro g hg
    obtain ⟨hlen, i, _, _, hgi⟩ := mem_find_exact_duplicates hg
    subst hgi
    refine ⟨hlen, exactGroupOf_nodup fps i, ?_⟩
    intro x hx
    have := (mem_exactGroupOf.mp hx).1
    omega
  have hinv : FuzzyInv ex jobs.length
      ((List.range jobs.length).foldl (fuzzyStep jobs) (ex.flatten, [])) := by
    apply foldl_fuzzyStep_inv jobs ex (List.range jobs.length) (ex.flatten, [])
    · intro i hi
      exact List.mem_range.mp hi
    · refine ⟨by simp, by simp, ?_⟩
      simpa using find_exact_duplicates_pairwise fps
  obtain ⟨_, hfgroups, hfpair⟩ := hinv
  constructor
  · intro g hg
    rcases List.mem_append.mp hg with hg1 | hg2
    · exact hexact g hg1
    · exact hfgroups g hg2
  · exact hfpair

/-- The fold of `_select_best_job_from_group` never leaves the group. -/
theorem foldl_best_mem (jobs : List Job) (g : List Nat) :
    ∀ (l : List Nat) (b : ℚ × Nat), b.2 ∈ g → (∀ x ∈ l, x ∈ g) →
      ((l.foldl
        (fun (b : ℚ × Nat) idx =>
          if b.1 < finalSelScore jobs idx then (finalSelScore jobs idx, idx)
          else b) b).2) ∈ g := by
  intro l
  induction l with
  | nil => intro b hb _; exact hb
  | cons a t ih =>
    intro b hb hsub
    rw [List.foldl_cons]
    by_cases hlt : b.1 < finalSelScore jobs a
    · simp only [hlt, if_pos]
      exact ih _ (hsub a (List.mem_cons_self a t))
        (fun x hx => hsub x (List.mem_cons_of_mem a hx))
    · simp only [hlt, if_neg, not_false_iff]
      exact ih _ hb (fun x hx => hsub x (List.mem_cons_of_mem a hx))

/-- The selected best index of a nonempty group is a member of the group. -/
theorem select_best_mem (jobs : List Job) {g : List Nat} (hg : g ≠ []) :
    select_best_job_from_group jobs g ∈ g := by
  match g, hg with
  | h :: t, _ =>
    unfold select_best_job_from_group
    exact foldl_best_mem jobs (h :: t) (h :: t) (mkRat (-1) 1, h)
      (List.mem_cons_self h t) (fun x hx => hx)

/-- With pairwise-disjoint groups, an index lying in one of them lies in
exactly one. -/
theorem countP_contains_eq_one {L : List (List Nat)} (hd : L.Pairwise DisjL)
    {g : List Nat} {i : Nat} (hg : g ∈ L) (hi : i ∈ g) :
    L.countP (fun h => h.contains i) = 1 := by
  induction L with
  | nil => cases hg
  | cons a T ih =>
    have ha : ∀ t ∈ T, DisjL a t := fun t ht => List.rel_of_pairwise_cons hd ht
    have hT : T.Pairwise DisjL := List.Pairwise.of_cons hd
    rcases List.mem_cons.mp hg with rfl | hgT
    · rw [List.countP_cons_of_pos (fun h => h.contains i) T
        (show (fun h : List Nat => h.contains i) g = true from
          contains_true_iff_mem.mpr hi)]
      have : T.countP (fun h => h.contains i) = 0 := by
        apply List.countP_eq_zero.mpr
        intro t ht hcont
        exact ha t ht i hi (contains_true_iff_mem.mp hcont)
      omega
    · have hia : i ∉ a := by
        intro hmem
        exact ha g hgT i hmem hi
      rw [List.countP_cons_of_neg (fun h => h.contains i) T
        (show ¬ (fun h : List Nat => h.contains i) a = true from
          fun hcont => hia (contains_true_iff_mem.mp hcont))]
      exact ih hT hgT

/-- Counting a disjunction of two pointwise-exclusive predicates. -/
theorem countP_or_disjoint {p q : Nat → Bool} :
    ∀ {l : List Nat}, (∀ x ∈ l, ¬(p x = true ∧ q x = true)) →
      l.countP (fun x => p x || q x) = l.countP p + l.countP q := by
  intro l
  induction l with
  | nil => intro _; simp
  | cons a t ih =>
    intro h
    have ht := ih fun x hx => h x (List.mem_cons_of_mem a hx)
    by_cases hp : p a = true
    · have hq : ¬ q a = true := fun hq => h a (List.mem_cons_self a t) ⟨hp, hq⟩
      rw [List.countP_cons_of_pos _ _ (by simp [hp]),
        List.countP_cons_of_pos _ _ hp, List.countP_cons_of_neg _ _ hq]
      omega
    · by_cases hq : q a = true
      · rw [List.countP_cons_of_pos _ _ (by simp [hq]),
          List.countP_cons_of_neg _ _ hp, List.countP_cons_of_pos _ _ hq]
        omega
      · rw [List.countP_cons_of_neg _ _ (by simp [hp, hq]),
          List.countP_cons_of_neg _ _ hp, List.countP_cons_of_neg _ _ hq]
        exact ht

/-- Best indices of pairwise-disjoint nonempty groups are pairwise
distinct. -/
theorem nodup_map_select_best (jobs : List Job) {L : List (List Nat)}
    (hd : L.Pairwise DisjL) (hne : ∀ g ∈ L, g ≠ []) :
    (L.map (select_best_job_from_group jobs)).Nodup := by
  unfold List.Nodup
  rw [List.pairwise_map]
  apply hd.imp_of_mem
  intro a b ha hb hab heq
  exact hab (select_best_job_from_group jobs a) (select_best_mem jobs (hne a ha))
    (heq ▸ select_best_mem jobs (hne b hb))

/-- Counting members of a duplicate-free, in-range index set over
`range n` gives its size. -/
theorem countP_contains_range {s : List Nat} {n : Nat} (hs : s.Nodup)
    (hb : ∀ x ∈ s, x < n) :
    (List.range n).countP (fun i => s.contains i) = s.length := by
  rw [List.countP_eq_length_filter]
  have hperm : List.Perm ((List.range n).filter fun i => s.contains i) s := by
    apply List.perm_of_nodup_nodup_toFinset_eq ((List.nodup_range n).filter _) hs
    ext x
    simp only [List.mem_toFinset, List.mem_filter, List.mem_range]
    constructor
    · intro hx
      exact contains_true_iff_mem.mp hx.2
    · intro hx
      exact ⟨hb x hx, contains_true_iff_mem.mpr hx⟩
  exact hperm.length_eq

theorem notInAnyGroup_iff {G : List (List Nat)} {i : Nat} :
    notInAnyGroup G i = true ↔ ∀ g ∈ G, i ∉ g := by
  unfold notInAnyGroup
  rw [List.all_eq_true]
  constructor
  · intro h g hg hmem
    have := h g hg
    rw [Bool.not_eq_eq_eq_not, Bool.not_true] at this
    rw [contains_true_iff_mem.mpr hmem] at this
    simp at this
  · intro h g hg
    rw [Bool.not_eq_eq_eq_not, Bool.not_true]
    rcases hcont : g.contains i with _ | _
    · rfl
    · exact absurd (contains_true_iff_mem.mp hcont) (h g hg)

/-- In a duplicate-free index list containing `i`, exactly one member's
singleton group contains `i`. -/
theorem countP_single_mem {s : List Nat} (hs : s.Nodup) {i : Nat}
    (hi : i ∈ s) :
    s.countP (fun j => ([j] : List Nat).contains i) = 1 := by
  induction s with
  | nil => cases hi
  | cons a t ih =>
    have hat : a ∉ t := (List.nodup_cons.mp hs).1
    have ht : t.Nodup := (List.nodup_cons.mp hs).2
    rcases List.mem_cons.mp hi with rfl | hit
    · rw [List.countP_cons_of_pos (fun j => ([j] : List Nat).contains i) t
        (show ([i] : List Nat).contains i = true from
          contains_true_iff_mem.mpr (List.mem_singleton.mpr rfl))]
      have : t.countP (fun j => ([j] : List Nat).contains i) = 0 := by
        apply List.countP_eq_zero.mpr
        intro j hj hcont
        have := List.mem_singleton.mp (contains_true_iff_mem.mp hcont)
        exact hat (this ▸ hj)
      omega
    · have hia : i ≠ a := by
        intro rfl2
        exact hat (rfl2 ▸ hit)
      rw [List.countP_cons_of_neg (fun j => ([j] : List Nat).contains i) t
        (show ¬ ([a] : List Nat).contains i = true from fun hcont =>
          hia (List.mem_singleton.mp (contains_true_iff_mem.mp hcont)))]
      exact ih ht hit

/-- The claim's partition of the input indices: the deduplicator's duplicate
groups together with a singleton group for every index in no duplicate
group. -/
def partitionGroups (jobs : List Job) : List (List Nat) :=
  (deduplicate_jobs jobs).duplicate_groups ++
    (((List.range jobs.length).filter fun i =>
        notInAnyGroup (deduplicate_jobs jobs).duplicate_groups i).map
      fun i => [i])

/-- C3: `deduplicate_jobs` partitions its input.  With a singleton group for
every ungrouped index: (1) every input index lies in exactly one group,
(2) the groups hold only input indices, and (3) the number of unique
listings returned equals the number of groups. -/
theorem c3_partition (jobs : List Job) :
    (∀ i, i < jobs.length →
      (partitionGroups jobs).countP (fun g => g.contains i) = 1) ∧
    (∀ g ∈ partitionGroups jobs, ∀ x ∈ g, x < jobs.length) ∧
    (deduplicate_jobs jobs).unique_jobs.length = (partitionGroups jobs).length := by
  obtain ⟨hprops, hpair⟩ := allDuplicateGroups_props jobs
  have hGdef : (deduplicate_jobs jobs).duplicate_groups = allDuplicateGroups jobs :=
    rfl
  set G := allDuplicateGroups jobs with hG
  set singles := (List.range jobs.length).filter
    (fun i => notInAnyGroup G i) with hsingles
  have hSnodup : singles.Nodup := (List.nodup_range _).filter _
  have hpart : partitionGroups jobs = G ++ (singles.map fun i => [i]) := rfl
  refine ⟨?_, ?_, ?_⟩
  · intro i hi
    rw [hpart, List.countP_append, List.countP_map]
    by_cases hex : ∃ g ∈ G, i ∈ g
    · obtain ⟨g, hg, hig⟩ := hex
      rw [countP_contains_eq_one hpair hg hig]
      have hnot : notInAnyGroup G i = false := by
        rcases h2 : notInAnyGroup G i with _ | _
        · rfl
        · exact absurd hig (notInAnyGroup_iff.mp h2 g hg)
      have : singles.countP ((fun h => List.contains h i) ∘ fun i => [i]) = 0 := by
        apply List.countP_eq_zero.mpr
        intro j hj hcont
        have hji := List.mem_singleton.mp (contains_true_iff_mem.mp hcont)
        have : i ∈ singles := hji ▸ hj
        have := (List.mem_filter.mp this).2
        rw [hnot] at this
        exact Bool.false_ne_true this
      omega
    · have h0 : G.countP (fun h => h.contains i) = 0 := by
        apply List.countP_eq_zero.mpr
        intro g hg hcont
        exact hex ⟨g, hg, contains_true_iff_mem.mp hcont⟩
      have hiS : i ∈ singles := by
        rw [hsingles]
        refine List.mem_filter.mpr ⟨List.mem_range.mpr hi, ?_⟩
        exact notInAnyGroup_iff.mpr fun g hg hmem => hex ⟨g, hg, hmem⟩
      have h1 : singles.countP ((fun h => List.contains h i) ∘ fun i => [i]) = 1 := by
        have := countP_single_mem hSnodup hiS
        exact this
      omega
  · intro g hg x hx
    rw [hpart] at hg
    rcases List.mem_append.mp hg with hg1 | hg2
    · exact (hprops g hg1).2.2 x hx
    · obtain ⟨j, hj, hgj⟩ := List.mem_map.mp hg2
      subst hgj
      have := (List.mem_filter.mp hj).1
      have hxj := List.mem_singleton.mp hx
      subst hxj
      exact List.mem_range.mp this
  · have hbests_mem : ∀ x ∈ G.map (select_best_job_from_group jobs),
        ∃ g ∈ G, x ∈ g := by
      intro x hx
      obtain ⟨g, hg, hgx⟩ := List.mem_map.mp hx
      have hne : g ≠ [] := by
        intro h0
        have := (hprops g hg).1
        rw [h0] at this
        simp at this
      exact ⟨g, hg, hgx ▸ select_best_mem jobs hne⟩
    have hbests_nodup : (G.map (select_best_job_from_group jobs)).Nodup := by
      apply nodup_map_select_best jobs hpair
      intro g hg h0
      have := (hprops g hg).1
      rw [h0] at this
      simp at this
    have hbests_bound : ∀ x ∈ G.map (select_best_job_from_group jobs),
        x < jobs.length := by
      intro x hx
      obtain ⟨g, hg, hgx⟩ := hbests_mem x hx
      exact (hprops g hg).2.2 x hgx
    have hul : (deduplicate_jobs jobs).unique_jobs.length =
        (List.range jobs.length).countP
          (fun i => (G.map (select_best_job_from_group jobs)).contains i ||
            notInAnyGroup G i) := by
      show ((selectedIndices jobs G).map fun i => jobs.getD i default).length = _
      rw [List.length_map]
      show ((List.range jobs.length).filter _).length = _
      rw [← List.countP_eq_length_filter]
    have hsplit : (List.range jobs.length).countP
        (fun i => (G.map (select_best_job_from_group jobs)).contains i ||
          notInAnyGroup G i) =
        (List.range jobs.length).countP
          (fun i => (G.map (select_best_job_from_group jobs)).contains i) +
        (List.range jobs.length).countP (fun i => notInAnyGroup G i) := by
      apply countP_or_disjoint
      intro x _ hx
      obtain ⟨hx1, hx2⟩ := hx
      obtain ⟨g, hg, hgx⟩ := hbests_mem x (contains_true_iff_mem.mp hx1)
      exact notInAnyGroup_iff.mp hx2 g hg hgx
    have hsing : (List.range jobs.length).countP (fun i => notInAnyGroup G i) =
        singles.length := by
      rw [hsingles, ← List.countP_eq_length_filter]
    have hbl := countP_contains_range hbests_nodup hbests_bound
    rw [hul, hsplit, hbl, hsing, hpart, List.length_append, List.length_map,
      List.length_map]

/-- Witness for C3 at a concrete one-listing input: the single index `0`
lies in exactly one group (its singleton), groups hold only input indices,
and one unique listing is returned for one group. -/
theorem c3_partition_witness :
    (0 < ([jobAHalf] : List Job).length) ∧
    (partitionGroups [jobAHalf]).countP (fun g => g.contains 0) = 1 ∧
    ([0] ∈ partitionGroups [jobAHalf] ∧ 0 ∈ ([0] : List Nat) ∧
      0 < ([jobAHalf] : List Job).length) ∧
    (deduplicate_jobs [jobAHalf]).unique_jobs.length =
      (partitionGroups [jobAHalf]).length :=
  ⟨by decide, (c3_partition [jobAHalf]).1 0 (by decide),
    ⟨by decide, by decide,
      (c3_partition [jobAHalf]).2.1 [0] (by decide) 0 (by decide)⟩,
    (c3_partition [jobAHalf]).2.2⟩
